import Mathlib

/-!
Shallow embedding of the QuickShare game server's matchmaking,
move-handling, rule-engine and settlement logic
(`src/server/routes.ts`), together with proofs of the spec's claims.

Modelling conventions:
* Monetary amounts (`stake`, balances, transaction amounts) are exact
  rationals, following the spec's fixed-point-decimal semantics for
  money; the JavaScript `parseFloat`/`toFixed(2)` round-trips are
  abstracted to exact arithmetic.
* A nullable string field is `Option String`; JavaScript truthiness of
  such a value (`x && ...`) is `truthy` below (null and the empty
  string are falsy).
* `Match.word` stands for the `word` field of the parsed `gameData`
  JSON snapshot (the only part of `gameData` the move processors read).
* `Math.random()` word selection is threaded as an explicit `rand : Nat`
  index parameter.
* Move payloads are dynamic JSON objects with at most one of the
  variant-specific fields set; absent fields are `none`.
-/

namespace QuickShare

/-- JavaScript truthiness of a nullable string value. -/
def truthy : Option String → Bool
  | some s => s ≠ ""
  | none => false

/-- A parsed `moveData` payload: `{move}`, `{position}`, `{take}` or
`{letter}` depending on the game variant; absent fields are `none`. -/
structure MoveData where
  move : Option String := none
  position : Option Nat := none
  take : Option Int := none
  letter : Option Char := none
deriving DecidableEq

/-- A row of the per-match move log (`game_moves`), scoped to one match
so the owning `matchId` column is left implicit. -/
structure Move where
  playerId : String
  data : MoveData
  moveNumber : Nat
deriving DecidableEq

/-- A `game_matches` row.  `word` is the `word` field of the serialized
`gameData` snapshot (set at pairing time for the word-guess variant). -/
structure Match where
  id : String
  gameType : String
  stake : ℚ
  player1Id : Option String
  player2Id : Option String
  state : String
  winnerId : Option String
  word : Option String
deriving DecidableEq

/-- The data fields of the per-variant game-state objects the move
processors return (function-valued fields such as `isYourTurn` are not
data and are dropped by JSON serialization, so they are not modelled). -/
inductive GState where
  | rps (moves1 moves2 : Option String) (result : Option String)
      (move1 move2 : Option String) (waitingFor : Option String)
  | ttt (board : List (Option Char)) (currentPlayer : Option String)
      (winner : Option Char)
  | sticks (sticks : Int) (currentPlayer lastPlayer : Option String)
      (gameOver : Bool)
  | hangman (word : String) (guessedLetters : List Char)
      (wrongGuesses player1Wrong player2Wrong : Nat)
      (currentPlayer : Option String) (displayWord : String)
      (gameOver won lost : Bool)
  | empty
deriving DecidableEq

/-- The `{finished, gameState, winnerId}` record every processor returns. -/
structure GameResult where
  finished : Bool
  gameState : GState
  winnerId : Option String
deriving DecidableEq

/-- The `move` field of the latest logged move of the given player
(`playerMoves[pid]` as built by `processRPSMove`). -/
def latestRPSChoice (pid : Option String) (ms : List Move) : Option String :=
  match (ms.filter fun m => decide (some m.playerId = pid)).getLast? with
  | some m => m.data.move
  | none => none

/-- The `winConditions` beats-table: the shape each key defeats. -/
def winConditions : String → Option String
  | "rock" => some "scissors"
  | "paper" => some "rock"
  | "scissors" => some "paper"
  | _ => none

/-- `evaluateRPS`: equal shapes draw, otherwise player 1 wins exactly
when their shape beats player 2's. -/
def evaluateRPS (move1 move2 : String) : String :=
  if move1 = move2 then "draw"
  else if winConditions move1 = some move2 then "player1"
  else "player2"

/-- `processRPSMove`: adjudicates from the latest logged choice of each
participant; terminal exactly when both participants have a (truthy)
latest choice. -/
def processRPSMove (mtch : Match) (allMoves : List Move) (_playerId : String) :
    GameResult :=
  let c1 := latestRPSChoice mtch.player1Id allMoves
  let c2 := latestRPSChoice mtch.player2Id allMoves
  if truthy mtch.player1Id && truthy mtch.player2Id && truthy c1 && truthy c2 then
    let move1 := c1.getD ""
    let move2 := c2.getD ""
    let result := evaluateRPS move1 move2
    let winnerId :=
      if result = "player1" then mtch.player1Id
      else if result = "player2" then mtch.player2Id
      else none
    { finished := true
      gameState := .rps c1 c2 (some result) (some move1) (some move2) none
      winnerId := winnerId }
  else
    { finished := false
      gameState := .rps c1 c2 none none none
        (if truthy c1 then mtch.player2Id else mtch.player1Id)
      winnerId := none }

/-- Player 1's marks are `'X'`, everyone else's `'O'`. -/
def tttSymbol (p1 : Option String) (pid : String) : Char :=
  if some pid = p1 then 'X' else 'O'

/-- One step of the tic-tac-toe board fold: a move into a missing or
already-filled cell leaves the board unchanged. -/
def applyTTTMove (p1 : Option String) (board : List (Option Char)) (m : Move) :
    List (Option Char) :=
  match m.data.position with
  | some pos =>
      if board.get? pos = some none then
        board.set pos (some (tttSymbol p1 m.playerId))
      else board
  | none => board

/-- The 3×3 board rebuilt from the full move log. -/
def tttBoard (p1 : Option String) (ms : List Move) : List (Option Char) :=
  ms.foldl (applyTTTMove p1) (List.replicate 9 none)

/-- The 8 winning triples (3 rows, 3 columns, 2 diagonals). -/
def tttLines : List (Nat × Nat × Nat) :=
  [(0, 1, 2), (3, 4, 5), (6, 7, 8), (0, 3, 6), (1, 4, 7), (2, 5, 8),
   (0, 4, 8), (2, 4, 6)]

/-- The mark winning on one triple, if any. -/
def lineWinner (board : List (Option Char)) : Nat × Nat × Nat → Option Char
  | (a, b, c) =>
    match board.getD a none with
    | some s =>
        if board.getD b none = some s ∧ board.getD c none = some s then some s
        else none
    | none => none

/-- `checkTicTacToeWinner`: first triple filled with one mark, if any. -/
def checkTicTacToeWinner (board : List (Option Char)) : Option Char :=
  (tttLines.filterMap (lineWinner board)).head?

/-- `processTicTacToeMove`: rebuilds the board from the log, terminal on
a winning triple or a full board (draw). -/
def processTicTacToeMove (mtch : Match) (allMoves : List Move)
    (_playerId : String) : GameResult :=
  let board := tttBoard mtch.player1Id allMoves
  let winner := checkTicTacToeWinner board
  let finished := winner.isSome || !(board.contains none)
  let winnerId :=
    if winner = some 'X' then mtch.player1Id
    else if winner = some 'O' then mtch.player2Id
    else none
  let nextPlayer :=
    if finished then none
    else if allMoves.length % 2 = 0 then mtch.player2Id else mtch.player1Id
  { finished := finished
    gameState := .ttt board nextPlayer winner
    winnerId := winnerId }

/-- The shared countdown after applying the whole move log: starts at 21
and each move subtracts its `take` field. -/
def sticksRemaining (ms : List Move) : Int :=
  21 - (ms.map fun m => m.data.take.getD 0).sum

/-- `processSticksMove`: terminal when the countdown is exhausted; the
caller (author of the last appended move) is then the loser. -/
def processSticksMove (mtch : Match) (allMoves : List Move) (playerId : String) :
    GameResult :=
  let sticks := sticksRemaining allMoves
  if sticks ≤ 0 then
    let winnerId :=
      if some playerId = mtch.player1Id then mtch.player2Id else mtch.player1Id
    { finished := true
      gameState := .sticks 0 none (some playerId) true
      winnerId := winnerId }
  else
    let nextPlayer :=
      if allMoves.length % 2 = 0 then mtch.player2Id else mtch.player1Id
    { finished := false
      gameState := .sticks sticks nextPlayer (some playerId) false
      winnerId := none }

/-- The fixed word list for the word-guess variant. -/
def hangmanWords : List String :=
  ["BLOCKCHAIN", "CRYPTOCURRENCY", "ARCADE", "RETRO", "GAMING", "PIXEL", "NEON"]

/-- `gameState.word || words[random index]`: the stored word when truthy,
otherwise a fresh roll of the word list. -/
def resolveWord (stored : Option String) (rand : Nat) : String :=
  if truthy stored then stored.getD ""
  else hangmanWords.getD (rand % hangmanWords.length) ""

/-- Accumulator of the word-guess log fold: letters guessed so far and
each participant's own wrong guesses. -/
structure HangmanAcc where
  guessedLetters : List Char
  player1Wrong : List Char
  player2Wrong : List Char
deriving DecidableEq

/-- One step of the word-guess fold: a payload without a letter, or a
letter already guessed by either side, leaves the accumulator unchanged;
a fresh wrong letter is charged to its author's own list only. -/
def hangmanStep (wordU : List Char) (p1 p2 : Option String) (acc : HangmanAcc)
    (m : Move) : HangmanAcc :=
  match m.data.letter with
  | none => acc
  | some l0 =>
    let letter := l0.toUpper
    if letter ∈ acc.guessedLetters then acc
    else
      let acc1 : HangmanAcc :=
        { acc with guessedLetters := acc.guessedLetters ++ [letter] }
      if letter ∈ wordU then acc1
      else if some m.playerId = p1 then
        { acc1 with player1Wrong := acc1.player1Wrong ++ [letter] }
      else if some m.playerId = p2 then
        { acc1 with player2Wrong := acc1.player2Wrong ++ [letter] }
      else acc1

/-- The guessed/wrong-guess accumulator over the whole move log. -/
def hangmanScan (wordU : List Char) (p1 p2 : Option String) (ms : List Move) :
    HangmanAcc :=
  ms.foldl (hangmanStep wordU p1 p2) ⟨[], [], []⟩

/-- `processHangmanMove`: terminal when the word is fully revealed (the
caller wins) or when the caller has 6 wrong guesses (the other
participant wins). -/
def processHangmanMove (rand : Nat) (mtch : Match) (allMoves : List Move)
    (playerId : String) : GameResult :=
  let word := resolveWord mtch.word rand
  let wordLetters := word.toUpper.toList
  let acc := hangmanScan wordLetters mtch.player1Id mtch.player2Id allMoves
  let isComplete : Bool := wordLetters.all fun l => l ∈ acc.guessedLetters
  let currentPlayerWrongCount :=
    if some playerId = mtch.player1Id then acc.player1Wrong.length
    else acc.player2Wrong.length
  let playerFailed : Bool := decide (6 ≤ currentPlayerWrongCount)
  let nextPlayer :=
    if isComplete || playerFailed then none
    else if allMoves.length % 2 = 0 then mtch.player2Id else mtch.player1Id
  let winnerId :=
    if isComplete then some playerId
    else if playerFailed then
      (if some playerId = mtch.player1Id then mtch.player2Id else mtch.player1Id)
    else none
  let displayWord := String.intercalate " "
    (wordLetters.map fun l =>
      if l ∈ acc.guessedLetters then String.singleton l else "_")
  { finished := isComplete || playerFailed
    gameState := .hangman word acc.guessedLetters currentPlayerWrongCount
      acc.player1Wrong.length acc.player2Wrong.length nextPlayer displayWord
      (isComplete || playerFailed) isComplete
      (playerFailed && decide (some playerId =
        (if nextPlayer = mtch.player1Id then mtch.player2Id else mtch.player1Id)))
    winnerId := winnerId }

/-- `processGameMove`: dispatch on the variant tag.  The current move
payload parameter is threaded but (as in the source) read by no
processor; only the word-guess processor consumes the randomness. -/
def processGameMove (rand : Nat) (mtch : Match) (_moveData : MoveData)
    (allMoves : List Move) (playerId : String) : GameResult :=
  if mtch.gameType = "rps" then processRPSMove mtch allMoves playerId
  else if mtch.gameType = "tictactoe" then
    processTicTacToeMove mtch allMoves playerId
  else if mtch.gameType = "sticks" then processSticksMove mtch allMoves playerId
  else if mtch.gameType = "hangman" then
    processHangmanMove rand mtch allMoves playerId
  else { finished := false, gameState := .empty, winnerId := none }

/-- The expected mover for alternating-turn variants: the second joiner
(participant two) on an even move count, the creator on an odd one. -/
def expectedMover (mtch : Match) (movesLen : Nat) : Option String :=
  if movesLen % 2 = 0 then mtch.player2Id else mtch.player1Id

/-- The acceptance decision of `handleGameMove` before a move is
recorded: in-progress match, turn parity for every non-simultaneous
variant, and for the simultaneous variant rejection exactly when both
participants already have a logged move. -/
def acceptsMove (mtch : Match) (moves : List Move) (playerId : String) : Bool :=
  if mtch.state ≠ "in_progress" then false
  else if mtch.gameType ≠ "rps" then
    decide (some playerId = expectedMover mtch moves.length)
  else
    !((moves.filter fun m => decide (some m.playerId = mtch.player1Id)).length != 0
      && (moves.filter fun m => decide (some m.playerId = mtch.player2Id)).length != 0)

/-- The accepted-move outcome: the extended log and the recomputed result. -/
structure StepResult where
  newMoves : List Move
  result : GameResult
deriving DecidableEq

/-- `handleGameMove` steps 2–5: fetch/validate, append with the next
sequence number, recompute over the full log; a rejected move yields
`none` (silently dropped, nothing recorded). -/
def handleGameMove (rand : Nat) (mtch : Match) (moves : List Move)
    (playerId : String) (d : MoveData) : Option StepResult :=
  if acceptsMove mtch moves playerId then
    let newMoves :=
      moves ++ [{ playerId := playerId, data := d, moveNumber := moves.length + 1 }]
    some { newMoves := newMoves
           result := processGameMove rand mtch d newMoves playerId }
  else none

/-- A `transactions` ledger row (kind, amount, description). -/
structure Transaction where
  ttype : String
  amount : ℚ
  description : String
deriving DecidableEq

/-- A player's balance, stats row and personal transaction ledger. -/
structure UserAccount where
  balance : ℚ
  totalGames : Nat
  totalWins : Nat
  totalLosses : Nat
  totalEarned : ℚ
  transactions : List Transaction
deriving DecidableEq

/-- `updateUserAfterGame`: a winner is credited `stake × 1.9` with a win
transaction; anyone else is debited the stake (no lower bound) with a
loss transaction; games and the matching win/loss counter increment. -/
def updateUserAfterGame (won : Bool) (stake : ℚ) (u : UserAccount) :
    UserAccount :=
  if won then
    let winnings := stake * (19 / 10 : ℚ)
    { balance := u.balance + winnings
      totalGames := u.totalGames + 1
      totalWins := u.totalWins + 1
      totalLosses := u.totalLosses
      totalEarned := u.totalEarned + winnings
      transactions := u.transactions ++ [⟨"win", winnings, "Game victory reward"⟩] }
  else
    { balance := u.balance - stake
      totalGames := u.totalGames + 1
      totalWins := u.totalWins
      totalLosses := u.totalLosses + 1
      totalEarned := u.totalEarned + 0
      transactions := u.transactions ++ [⟨"lose", stake, "Game stake lost"⟩] }

/-- The settlement block of `handleGameMove` on a finished match: each
present participant is settled with `won := (winnerId === their id)`. -/
def settleFinished (mtch : Match) (winnerId : Option String)
    (u1 u2 : UserAccount) : UserAccount × UserAccount :=
  (if truthy mtch.player1Id then
     updateUserAfterGame (decide (winnerId = mtch.player1Id)) mtch.stake u1
   else u1,
   if truthy mtch.player2Id then
     updateUserAfterGame (decide (winnerId = mtch.player2Id)) mtch.stake u2
   else u2)

/-- The freshly created waiting match of `POST /api/matches`. -/
def newWaitingMatch (freshId gameType : String) (stake : ℚ) (playerId : String) :
    Match :=
  { id := freshId, gameType := gameType, stake := stake
    player1Id := some playerId, player2Id := none
    state := "waiting", winnerId := none, word := none }

/-- The `word` field of the initial game state stored at pairing time:
present (a roll of the word list) only for the word-guess variant. -/
def pairWord (rand : Nat) (gameType : String) : Option String :=
  if gameType = "hangman" then
    some (hangmanWords.getD (rand % hangmanWords.length) "")
  else none

/-- What `POST /api/matches` did to the match store. -/
inductive MatchmakingOutcome where
  | createdWaiting (m : Match)
  | paired (updated : Match)
deriving DecidableEq

/-- `POST /api/matches`: join the first waiting match for the requested
variant and stake unless it is self-created, in which case (as when no
candidate exists) a fresh waiting match is created instead. -/
def postMatches (rand : Nat) (gameType : String) (stake : ℚ)
    (playerId freshId : String) (waitingMatches : List Match) :
    MatchmakingOutcome :=
  match waitingMatches.head? with
  | some m =>
    if m.player1Id = some playerId then
      .createdWaiting (newWaitingMatch freshId gameType stake playerId)
    else
      .paired { m with player2Id := some playerId, state := "in_progress"
                       word := pairWord rand gameType }
  | none => .createdWaiting (newWaitingMatch freshId gameType stake playerId)

/-- The balance update of `POST /api/transactions`: deposits add, and
withdrawals subtract but clamp the result at 0 via `Math.max`. -/
def applyTransactionBalance (ttype : String) (amount balance : ℚ) : ℚ :=
  if ttype = "deposit" then balance + amount
  else if ttype = "withdraw" then max 0 (balance - amount)
  else balance


/-- A drawn simultaneous-choice match: both participants picked rock. -/
def exMatchRPS : Match :=
  { id := "m1", gameType := "rps", stake := 10, player1Id := some "p1",
    player2Id := some "p2", state := "in_progress", winnerId := none, word := none }

/-- The move log of the drawn match (both chose rock). -/
def exMovesRPS : List Move :=
  [⟨"p1", { move := some "rock" }, 1⟩, ⟨"p2", { move := some "rock" }, 2⟩]

/-- A fresh account with balance 100 and empty ledger. -/
def exAccount : UserAccount := ⟨100, 0, 0, 0, 0, []⟩

/-- **C1.** The claim (and spec) require that a drawn match settles with
no balance change and no transaction for either participant.  The code
violates this: an RPS match in which both participants play rock
adjudicates as a draw (`winnerId` null), and the settlement block then
treats both participants as losers — each balance drops by the stake
(100 → 90 at stake 10) and a loss transaction is appended for each. -/
theorem rps_draw_settlement_debits_both :
    (processRPSMove exMatchRPS exMovesRPS "p2").finished = true ∧
    (processRPSMove exMatchRPS exMovesRPS "p2").winnerId = none ∧
    (settleFinished exMatchRPS
        (processRPSMove exMatchRPS exMovesRPS "p2").winnerId
        exAccount exAccount).1.balance = 90 ∧
    (settleFinished exMatchRPS
        (processRPSMove exMatchRPS exMovesRPS "p2").winnerId
        exAccount exAccount).2.balance = 90 ∧
    (settleFinished exMatchRPS
        (processRPSMove exMatchRPS exMovesRPS "p2").winnerId
        exAccount exAccount).1.transactions =
      [⟨"lose", 10, "Game stake lost"⟩] ∧
    (settleFinished exMatchRPS
        (processRPSMove exMatchRPS exMovesRPS "p2").winnerId
        exAccount exAccount).2.transactions =
      [⟨"lose", 10, "Game stake lost"⟩] := by
  have hw : (processRPSMove exMatchRPS exMovesRPS "p2").winnerId = none := by decide
  refine ⟨by decide, hw, ?_, ?_, ?_, ?_⟩ <;>
  · rw [hw]
    norm_num [settleFinished, updateUserAfterGame, exMatchRPS, exAccount, truthy]
    decide

/-- **C2.** Settlement of a finished match with a non-null winner: the
winning participant's balance rises by exactly `stake × 1.9` with a win
transaction for that amount, the losing participant's balance falls by
exactly the stake with a loss transaction, and each participant's
games-played counter plus the matching win/loss counter increment. -/
theorem settlement_win_loss_amounts (mtch : Match) (u1 u2 : UserAccount)
    (p1 p2 : String) (w : Option String)
    (h1 : mtch.player1Id = some p1) (h2 : mtch.player2Id = some p2)
    (hn1 : p1 ≠ "") (hn2 : p2 ≠ "") (hne : p1 ≠ p2)
    (hw : w = some p1 ∨ w = some p2) :
    (w = some p1 →
      (settleFinished mtch w u1 u2).1.balance = u1.balance + mtch.stake * (19 / 10) ∧
      (settleFinished mtch w u1 u2).1.transactions =
        u1.transactions ++ [⟨"win", mtch.stake * (19 / 10), "Game victory reward"⟩] ∧
      (settleFinished mtch w u1 u2).1.totalGames = u1.totalGames + 1 ∧
      (settleFinished mtch w u1 u2).1.totalWins = u1.totalWins + 1 ∧
      (settleFinished mtch w u1 u2).1.totalLosses = u1.totalLosses ∧
      (settleFinished mtch w u1 u2).2.balance = u2.balance - mtch.stake ∧
      (settleFinished mtch w u1 u2).2.transactions =
        u2.transactions ++ [⟨"lose", mtch.stake, "Game stake lost"⟩] ∧
      (settleFinished mtch w u1 u2).2.totalGames = u2.totalGames + 1 ∧
      (settleFinished mtch w u1 u2).2.totalWins = u2.totalWins ∧
      (settleFinished mtch w u1 u2).2.totalLosses = u2.totalLosses + 1) ∧
    (w = some p2 →
      (settleFinished mtch w u1 u2).2.balance = u2.balance + mtch.stake * (19 / 10) ∧
      (settleFinished mtch w u1 u2).2.transactions =
        u2.transactions ++ [⟨"win", mtch.stake * (19 / 10), "Game victory reward"⟩] ∧
      (settleFinished mtch w u1 u2).2.totalGames = u2.totalGames + 1 ∧
      (settleFinished mtch w u1 u2).2.totalWins = u2.totalWins + 1 ∧
      (settleFinished mtch w u1 u2).2.totalLosses = u2.totalLosses ∧
      (settleFinished mtch w u1 u2).1.balance = u1.balance - mtch.stake ∧
      (settleFinished mtch w u1 u2).1.transactions =
        u1.transactions ++ [⟨"lose", mtch.stake, "Game stake lost"⟩] ∧
      (settleFinished mtch w u1 u2).1.totalGames = u1.totalGames + 1 ∧
      (settleFinished mtch w u1 u2).1.totalWins = u1.totalWins ∧
      (settleFinished mtch w u1 u2).1.totalLosses = u1.totalLosses + 1) := by
  constructor
  · intro hwp
    subst hwp
    simp [settleFinished, updateUserAfterGame, truthy, h1, h2, hn1, hn2, hne]
  · intro hwp
    subst hwp
    have hne2 : p2 ≠ p1 := fun h => hne h.symm
    simp [settleFinished, updateUserAfterGame, truthy, h1, h2, hn1, hn2, hne2]

/-- A finished match of stake 10 between `"a"` and `"b"`, won by `"a"`. -/
def exMatchWon : Match :=
  { id := "m2", gameType := "sticks", stake := 10, player1Id := some "a",
    player2Id := some "b", state := "finished", winnerId := some "a", word := none }

/-- Witness for the settlement theorem at stake 10: the winner is
credited exactly 19 (10 × 1.9). -/
theorem settlement_win_loss_amounts_witness :
    (settleFinished exMatchWon (some "a") exAccount exAccount).1.balance =
      exAccount.balance + exMatchWon.stake * (19 / 10) :=
  ((settlement_win_loss_amounts exMatchWon exAccount exAccount "a" "b"
      (some "a") rfl rfl (by decide) (by decide) (by decide) (Or.inl rfl)).1 rfl).1

/-- **C10.** A losing participant's settlement subtracts the stake from
the balance with no lower bound — the result is negative whenever the
stake exceeds the balance — whereas the withdraw path clamps the
post-transaction balance at 0. -/
theorem losing_balance_unclamped_unlike_withdraw (u : UserAccount)
    (stake amt bal : ℚ) (h : u.balance < stake) :
    (updateUserAfterGame false stake u).balance = u.balance - stake ∧
    (updateUserAfterGame false stake u).balance < 0 ∧
    0 ≤ applyTransactionBalance "withdraw" amt bal := by
  refine ⟨by simp [updateUserAfterGame], ?_, ?_⟩
  · simp only [updateUserAfterGame]
    simp only [Bool.false_eq_true, if_false]
    linarith
  · simp [applyTransactionBalance]

/-- Witness for the unclamped-loss theorem: balance 100, stake 200 —
the settled balance is −100 while a withdrawal of 200 stops at 0. -/
theorem losing_balance_unclamped_unlike_withdraw_witness :
    (100 : ℚ) < 200 ∧
    ((updateUserAfterGame false 200 exAccount).balance = exAccount.balance - 200 ∧
     (updateUserAfterGame false 200 exAccount).balance < 0 ∧
     0 ≤ applyTransactionBalance "withdraw" 200 100) :=
  ⟨by norm_num,
   losing_balance_unclamped_unlike_withdraw exAccount 200 200 100 (by norm_num [exAccount])⟩


/-- **C4.** Rule-engine recompute is deterministic: for a match whose
stored metadata fixes the word-guess secret (which pairing always does
for that variant — `pairWord`), the recomputed result is independent of
the randomness parameter, so two runs on the same (match metadata,
ordered move log) inputs agree on state, terminal flag and winner. -/
theorem recompute_deterministic (mtch : Match) (d : MoveData) (ms : List Move)
    (pid : String) (r1 r2 : Nat)
    (h : mtch.gameType = "hangman" → truthy mtch.word = true) :
    processGameMove r1 mtch d ms pid = processGameMove r2 mtch d ms pid := by
  unfold processGameMove
  split_ifs with h1 h2 h3 h4
  · rfl
  · rfl
  · rfl
  · have hw := h h4
    unfold processHangmanMove resolveWord
    rw [hw]
    simp
  · rfl

/-- An in-progress word-guess match with the secret word stored. -/
def exMatchHangman : Match :=
  { id := "m3", gameType := "hangman", stake := 5, player1Id := some "a",
    player2Id := some "b", state := "in_progress", winnerId := none,
    word := some "RETRO" }

/-- Witness for determinism: recomputing the word-guess match with two
different random seeds gives the same result. -/
theorem recompute_deterministic_witness :
    (exMatchHangman.gameType = "hangman" → truthy exMatchHangman.word = true) ∧
    processGameMove 0 exMatchHangman ⟨none, none, none, some 'E'⟩
        [⟨"b", ⟨none, none, none, some 'E'⟩, 1⟩] "b" =
      processGameMove 5 exMatchHangman ⟨none, none, none, some 'E'⟩
        [⟨"b", ⟨none, none, none, some 'E'⟩, 1⟩] "b" :=
  ⟨by decide,
   recompute_deterministic exMatchHangman ⟨none, none, none, some 'E'⟩
     [⟨"b", ⟨none, none, none, some 'E'⟩, 1⟩] "b" 0 5 (by decide)⟩

/-- **C5.** For the alternating-turn variants an in-progress match
accepts a submitted move exactly when its author is the expected mover
for the current move count's parity: the second joiner (participant two)
on an even count — so the second joiner moves first — and the creator
(participant one) on an odd count. -/
theorem alternating_turn_acceptance (rand : Nat) (mtch : Match)
    (ms : List Move) (pid : String) (d : MoveData)
    (hg : mtch.gameType = "tictactoe" ∨ mtch.gameType = "sticks" ∨
      mtch.gameType = "hangman")
    (hs : mtch.state = "in_progress") :
    ((handleGameMove rand mtch ms pid d).isSome = true ↔
      some pid = (if ms.length % 2 = 0 then mtch.player2Id else mtch.player1Id)) := by
  have hrps : mtch.gameType ≠ "rps" := by
    rcases hg with h | h | h <;> rw [h] <;> decide
  have hacc : acceptsMove mtch ms pid =
      decide (some pid = expectedMover mtch ms.length) := by
    unfold acceptsMove
    rw [if_neg (by simp [hs]), if_pos hrps]
  unfold handleGameMove
  rw [hacc]
  unfold expectedMover
  by_cases hc : some pid = (if ms.length % 2 = 0 then mtch.player2Id else mtch.player1Id) <;>
    simp [hc]

/-- An in-progress grid-claim match between creator `"a"` and joiner `"b"`. -/
def exMatchTTT : Match :=
  { id := "m4", gameType := "tictactoe", stake := 10, player1Id := some "a",
    player2Id := some "b", state := "in_progress", winnerId := none, word := none }

/-- Witness for turn acceptance: on the empty log (even count) the
second joiner `"b"` is accepted. -/
theorem alternating_turn_acceptance_witness :
    (handleGameMove 0 exMatchTTT [] "b" ⟨none, some 4, none, none⟩).isSome = true :=
  (alternating_turn_acceptance 0 exMatchTTT [] "b" ⟨none, some 4, none, none⟩
    (Or.inl rfl) rfl).2 (by decide)


/-- Appending a move re-points its own author's latest choice at the new
payload. -/
lemma latestRPSChoice_concat_self (pid : Option String) (ms : List Move)
    (mv : Move) (h : some mv.playerId = pid) :
    latestRPSChoice pid (ms ++ [mv]) = mv.data.move := by
  unfold latestRPSChoice
  rw [List.filter_append]
  have hf : List.filter (fun m => decide (some m.playerId = pid)) [mv] = [mv] := by
    simp [List.filter, h]
  rw [hf, List.getLast?_concat]

/-- Appending a move leaves every other participant's latest choice
unchanged. -/
lemma latestRPSChoice_concat_other (pid : Option String) (ms : List Move)
    (mv : Move) (h : some mv.playerId ≠ pid) :
    latestRPSChoice pid (ms ++ [mv]) = latestRPSChoice pid ms := by
  unfold latestRPSChoice
  rw [List.filter_append]
  have hf : List.filter (fun m => decide (some m.playerId = pid)) [mv] = [] := by
    simp [List.filter, h]
  rw [hf, List.append_nil]

/-- A participant has a logged move exactly when the author-filtered log
is nonempty. -/
lemma filter_author_length_ne_zero (ms : List Move) (p : String) :
    (((ms.filter fun m => decide (some m.playerId = some p)).length != 0) = true) ↔
      ∃ m ∈ ms, m.playerId = p := by
  rw [bne_iff_ne, Ne, List.length_eq_zero, List.filter_eq_nil_iff]
  push_neg
  simp

/-- **C6.** Simultaneous-choice moves on an in-progress match are
rejected exactly when both participants already have a logged move;
otherwise the move is appended with the next sequence number.  A
resubmission overrides only its author's latest choice (the opponent's
is untouched), and adjudication is a function of the latest choice per
participant alone. -/
theorem rps_reject_only_when_both_moved (rand : Nat) (mtch : Match)
    (ms : List Move) (pid p1 p2 : String) (d : MoveData)
    (hg : mtch.gameType = "rps") (hs : mtch.state = "in_progress")
    (h1 : mtch.player1Id = some p1) (h2 : mtch.player2Id = some p2) :
    (handleGameMove rand mtch ms pid d = none ↔
      ((∃ m ∈ ms, m.playerId = p1) ∧ (∃ m ∈ ms, m.playerId = p2))) ∧
    ((handleGameMove rand mtch ms pid d).map StepResult.newMoves = none ∨
      (handleGameMove rand mtch ms pid d).map StepResult.newMoves =
        some (ms ++ [⟨pid, d, ms.length + 1⟩])) ∧
    (latestRPSChoice (some pid) (ms ++ [⟨pid, d, ms.length + 1⟩]) = d.move) ∧
    (∀ q : String, q ≠ pid →
      latestRPSChoice (some q) (ms ++ [⟨pid, d, ms.length + 1⟩]) =
        latestRPSChoice (some q) ms) ∧
    (∀ ms' : List Move,
      latestRPSChoice mtch.player1Id ms' = latestRPSChoice mtch.player1Id ms →
      latestRPSChoice mtch.player2Id ms' = latestRPSChoice mtch.player2Id ms →
      processRPSMove mtch ms' pid = processRPSMove mtch ms pid) := by
  have hacc : acceptsMove mtch ms pid =
      !((ms.filter fun m => decide (some m.playerId = mtch.player1Id)).length != 0
        && (ms.filter fun m => decide (some m.playerId = mtch.player2Id)).length != 0) := by
    unfold acceptsMove
    rw [if_neg (by simp [hs]), if_neg (by simp [hg])]
  refine ⟨?_, ?_, ?_, ?_, ?_⟩
  · have hkey : handleGameMove rand mtch ms pid d = none ↔
        acceptsMove mtch ms pid = false := by
      unfold handleGameMove
      by_cases ha : acceptsMove mtch ms pid = true <;> simp [ha]
    rw [hkey, hacc, h1, h2, Bool.not_eq_false', Bool.and_eq_true,
      filter_author_length_ne_zero ms p1, filter_author_length_ne_zero ms p2]
  · by_cases ha : acceptsMove mtch ms pid = true
    · right
      simp [handleGameMove, ha]
    · left
      simp [handleGameMove, ha]
  · exact latestRPSChoice_concat_self (some pid) ms _ rfl
  · intro q hq
    exact latestRPSChoice_concat_other (some q) ms _ (by simp [Ne.symm hq])
  · intro ms' ha hb
    unfold processRPSMove
    rw [ha, hb]


/-- Witness for the simultaneous-choice theorem: after `"p1"` submits
rock on the empty log, `"p1"`'s latest recorded choice is rock. -/
theorem rps_reject_only_when_both_moved_witness :
    latestRPSChoice (some "p1")
        ([] ++ [⟨"p1", ⟨some "rock", none, none, none⟩, 1⟩]) = some "rock" :=
  (rps_reject_only_when_both_moved 0 exMatchRPS [] "p1" "p1" "p2"
      ⟨some "rock", none, none, none⟩ rfl rfl rfl rfl).2.2.1

/-- The grid-claim move log in which the joiner `"b"` has claimed cell 0. -/
def exMovesTTT : List Move := [⟨"b", ⟨none, some 0, none, none⟩, 1⟩]

/-- **C3 counterexample.** The claim says a move into an already-filled
cell is rejected before being recorded.  In the code it is recorded:
with cell 0 already marked by `"b"`, the creator `"a"`'s move into cell
0 is accepted and appended (sequence numbers 1, 2 — it consumed a turn
and a sequence slot); only the recompute ignores it (cell 0 keeps `'O'`,
and the turn passes back to `"b"`). -/
theorem occupied_cell_move_is_recorded :
    (handleGameMove 0 exMatchTTT exMovesTTT "a" ⟨none, some 0, none, none⟩).map
        (fun r => (r.newMoves.map Move.moveNumber, r.result.gameState)) =
      some ([1, 2],
        .ttt [some 'O', none, none, none, none, none, none, none, none]
          (some "b") none) := by decide

/-- A grid-claim move whose target cell is already filled leaves the
board unchanged at recompute. -/
lemma applyTTTMove_occupied (p1 : Option String) (board : List (Option Char))
    (mv : Move) (pos : Nat) (c : Char) (hd : mv.data.position = some pos)
    (hocc : board.get? pos = some (some c)) :
    applyTTTMove p1 board mv = board := by
  unfold applyTTTMove
  simp only [hd]
  rw [if_neg (by rw [hocc]; simp)]

/-- **C3 (amended).** A move targeting an already-filled cell is not
rejected before recording: when it is its author's turn it is accepted
and appended with the next sequence number (consuming the turn), and the
Rule Engine recompute ignores the payload, leaving the board unchanged. -/
theorem occupied_cell_move_appended_but_ignored (rand : Nat) (mtch : Match)
    (ms : List Move) (pid : String) (d : MoveData) (pos : Nat) (c : Char)
    (hs : mtch.state = "in_progress") (hg : mtch.gameType = "tictactoe")
    (hturn : some pid = expectedMover mtch ms.length)
    (hd : d.position = some pos)
    (hocc : (tttBoard mtch.player1Id ms).get? pos = some (some c)) :
    (handleGameMove rand mtch ms pid d).map StepResult.newMoves =
      some (ms ++ [⟨pid, d, ms.length + 1⟩]) ∧
    tttBoard mtch.player1Id (ms ++ [⟨pid, d, ms.length + 1⟩]) =
      tttBoard mtch.player1Id ms := by
  constructor
  · have ha : acceptsMove mtch ms pid = true := by
      unfold acceptsMove
      rw [if_neg (by simp [hs]), if_pos (by simp [hg])]
      exact decide_eq_true hturn
    simp [handleGameMove, ha]
  · unfold tttBoard
    rw [List.foldl_append, List.foldl_cons, List.foldl_nil]
    exact applyTTTMove_occupied mtch.player1Id _ _ pos c hd hocc

/-- Witness for the amended occupied-cell theorem: the board is
unchanged after `"a"`'s move into the occupied cell 0. -/
theorem occupied_cell_move_appended_but_ignored_witness :
    tttBoard exMatchTTT.player1Id
        (exMovesTTT ++ [⟨"a", ⟨none, some 0, none, none⟩, 2⟩]) =
      tttBoard exMatchTTT.player1Id exMovesTTT :=
  (occupied_cell_move_appended_but_ignored 0 exMatchTTT exMovesTTT "a"
      ⟨none, some 0, none, none⟩ 0 'O' rfl rfl (by decide) rfl (by decide)).2

/-- **C7.** The countdown starts at 21; the match is terminal exactly
when the shared count is exhausted after applying the move log (the
stored count is then 0), and the author of the final move — the caller —
is recorded as the loser: the other participant is the winner. -/
theorem sticks_exhausted_last_mover_loses (mtch : Match) (ms : List Move)
    (pid p1 p2 : String)
    (h1 : mtch.player1Id = some p1) (h2 : mtch.player2Id = some p2)
    (hne : p1 ≠ p2)
    (hlast : ms.getLast?.map Move.playerId = some pid)
    (hwf : ∀ m ∈ ms, (m.data.take).isSome = true) :
    sticksRemaining [] = 21 ∧
    ((processSticksMove mtch ms pid).finished = true ↔ sticksRemaining ms ≤ 0) ∧
    (sticksRemaining ms ≤ 0 →
      (processSticksMove mtch ms pid).winnerId =
        some (if pid = p1 then p2 else p1) ∧
      (processSticksMove mtch ms pid).gameState =
        .sticks 0 none (some pid) true) := by
  refine ⟨by simp [sticksRemaining], ?_, ?_⟩
  · unfold processSticksMove
    by_cases hc : sticksRemaining ms ≤ 0 <;> simp [hc]
  · intro hc
    unfold processSticksMove
    rw [if_pos hc]
    refine ⟨?_, rfl⟩
    rw [h1, h2]
    by_cases hp : pid = p1
    · simp [hp]
    · rw [if_neg (by simpa using hp), if_neg hp]

/-- A countdown match between creator `"a"` and joiner `"b"`. -/
def exMatchSticks : Match :=
  { id := "m5", gameType := "sticks", stake := 10, player1Id := some "a",
    player2Id := some "b", state := "in_progress", winnerId := none, word := none }

/-- The countdown log: takes 3,3,3,3,3,3 then 3 — summing to 21. -/
def exMovesSticks : List Move :=
  [⟨"b", ⟨none, none, some 3, none⟩, 1⟩, ⟨"a", ⟨none, none, some 3, none⟩, 2⟩,
   ⟨"b", ⟨none, none, some 3, none⟩, 3⟩, ⟨"a", ⟨none, none, some 3, none⟩, 4⟩,
   ⟨"b", ⟨none, none, some 3, none⟩, 5⟩, ⟨"a", ⟨none, none, some 3, none⟩, 6⟩,
   ⟨"b", ⟨none, none, some 3, none⟩, 7⟩]

/-- Witness for the countdown theorem: after moves summing to exactly
21, the last mover `"b"` loses and `"a"` wins. -/
theorem sticks_exhausted_last_mover_loses_witness :
    (processSticksMove exMatchSticks exMovesSticks "b").winnerId =
      some (if "b" = "a" then "b" else "a") :=
  ((sticks_exhausted_last_mover_loses exMatchSticks exMovesSticks "b" "a" "b"
      rfl rfl (by decide) (by decide) (by decide)).2.2 (by decide)).1

/-- **C8.** A word-guess move is accepted on the author's turn
regardless of its letter and appended with the next sequence number
(consuming a turn and a sequence slot); if the letter was already
guessed by either participant the recompute accumulator is unchanged —
neither the revealed-letter set nor either wrong-guess counter moves —
while a fresh wrong letter is charged to its author's own counter only. -/
theorem hangman_duplicate_guess_noop (rand : Nat) (mtch : Match)
    (ms : List Move) (pid : String) (d : MoveData) (l : Char)
    (hg : mtch.gameType = "hangman") (hs : mtch.state = "in_progress")
    (hturn : some pid = expectedMover mtch ms.length)
    (hl : d.letter = some l) :
    (handleGameMove rand mtch ms pid d).map StepResult.newMoves =
      some (ms ++ [⟨pid, d, ms.length + 1⟩]) ∧
    (∀ wordU : List Char,
      l.toUpper ∈ (hangmanScan wordU mtch.player1Id mtch.player2Id ms).guessedLetters →
      hangmanScan wordU mtch.player1Id mtch.player2Id
          (ms ++ [⟨pid, d, ms.length + 1⟩]) =
        hangmanScan wordU mtch.player1Id mtch.player2Id ms) ∧
    (∀ wordU : List Char,
      l.toUpper ∉ (hangmanScan wordU mtch.player1Id mtch.player2Id ms).guessedLetters →
      l.toUpper ∉ wordU →
      (some pid = mtch.player1Id →
        hangmanScan wordU mtch.player1Id mtch.player2Id
            (ms ++ [⟨pid, d, ms.length + 1⟩]) =
          { guessedLetters :=
              (hangmanScan wordU mtch.player1Id mtch.player2Id ms).guessedLetters ++ [l.toUpper]
            player1Wrong :=
              (hangmanScan wordU mtch.player1Id mtch.player2Id ms).player1Wrong ++ [l.toUpper]
            player2Wrong :=
              (hangmanScan wordU mtch.player1Id mtch.player2Id ms).player2Wrong }) ∧
      (some pid ≠ mtch.player1Id → some pid = mtch.player2Id →
        hangmanScan wordU mtch.player1Id mtch.player2Id
            (ms ++ [⟨pid, d, ms.length + 1⟩]) =
          { guessedLetters :=
              (hangmanScan wordU mtch.player1Id mtch.player2Id ms).guessedLetters ++ [l.toUpper]
            player1Wrong :=
              (hangmanScan wordU mtch.player1Id mtch.player2Id ms).player1Wrong
            player2Wrong :=
              (hangmanScan wordU mtch.player1Id mtch.player2Id ms).player2Wrong ++ [l.toUpper] })) := by
  have hstep : ∀ wordU : List Char,
      hangmanScan wordU mtch.player1Id mtch.player2Id
          (ms ++ [⟨pid, d, ms.length + 1⟩]) =
        hangmanStep wordU mtch.player1Id mtch.player2Id
          (hangmanScan wordU mtch.player1Id mtch.player2Id ms)
          ⟨pid, d, ms.length + 1⟩ := by
    intro wordU
    unfold hangmanScan
    rw [List.foldl_append, List.foldl_cons, List.foldl_nil]
  refine ⟨?_, ?_, ?_⟩
  · have ha : acceptsMove mtch ms pid = true := by
      unfold acceptsMove
      rw [if_neg (by simp [hs]), if_pos (by simp [hg])]
      exact decide_eq_true hturn
    simp [handleGameMove, ha]
  · intro wordU hdup
    rw [hstep wordU]
    unfold hangmanStep
    simp only [hl]
    rw [if_pos hdup]
  · intro wordU hfresh hwrong
    constructor
    · intro hp1
      rw [hstep wordU]
      unfold hangmanStep
      simp only [hl]
      rw [if_neg hfresh, if_neg hwrong, if_pos hp1]
    · intro hnp1 hp2
      rw [hstep wordU]
      unfold hangmanStep
      simp only [hl]
      rw [if_neg hfresh, if_neg hwrong, if_neg hnp1, if_pos hp2]

/-- The word-guess log: the joiner `"b"` has already guessed the wrong
letter Z. -/
def exMovesHangman : List Move := [⟨"b", ⟨none, none, none, some 'Z'⟩, 1⟩]

/-- Witness for the duplicate-guess theorem: `"a"` repeating the guess Z
(already guessed by `"b"`) leaves the accumulator — revealed letters and
both wrong-guess counters — unchanged. -/
theorem hangman_duplicate_guess_noop_witness :
    hangmanScan ['R', 'E', 'T', 'R', 'O'] (some "a") (some "b")
        (exMovesHangman ++ [⟨"a", ⟨none, none, none, some 'z'⟩, 2⟩]) =
      hangmanScan ['R', 'E', 'T', 'R', 'O'] (some "a") (some "b") exMovesHangman :=
  (hangman_duplicate_guess_noop 0 exMatchHangman exMovesHangman "a"
      ⟨none, none, none, some 'z'⟩ 'z' rfl rfl (by decide) rfl).2.1
    ['R', 'E', 'T', 'R', 'O'] (by decide)

/-- **C9.** When the first-found waiting match for the requested variant
and stake was created by the requester, the requester is not paired into
it: a distinct fresh waiting match with the requester as participant one
(and no participant two) is returned, and no outcome of the matchmaking
endpoint ever assigns the same player as both participants. -/
theorem matchmaking_never_pairs_self (rand : Nat) (gameType : String)
    (stake : ℚ) (playerId freshId : String) (waiting : List Match) (m0 : Match)
    (hhead : waiting.head? = some m0) (hself : m0.player1Id = some playerId)
    (hfresh : freshId ≠ m0.id) :
    postMatches rand gameType stake playerId freshId waiting =
      .createdWaiting (newWaitingMatch freshId gameType stake playerId) ∧
    (newWaitingMatch freshId gameType stake playerId).player1Id = some playerId ∧
    (newWaitingMatch freshId gameType stake playerId).player2Id = none ∧
    (newWaitingMatch freshId gameType stake playerId).state = "waiting" ∧
    (newWaitingMatch freshId gameType stake playerId).id ≠ m0.id ∧
    (∀ w' : List Match, ∀ u : Match,
      postMatches rand gameType stake playerId freshId w' = .paired u →
      u.player2Id = some playerId ∧ u.player1Id ≠ some playerId ∧
        u.player1Id ≠ u.player2Id) ∧
    (∀ w' : List Match, ∀ n : Match,
      postMatches rand gameType stake playerId freshId w' = .createdWaiting n →
      n.player1Id = some playerId ∧ n.player2Id = none) := by
  refine ⟨?_, rfl, rfl, rfl, hfresh, ?_, ?_⟩
  · unfold postMatches
    rw [hhead]
    exact if_pos hself
  · intro w' u hu
    unfold postMatches at hu
    cases w' with
    | nil => exact absurd hu (by simp)
    | cons m' rest =>
      simp only [List.head?_cons] at hu
      by_cases hp : m'.player1Id = some playerId
      · rw [if_pos hp] at hu
        exact absurd hu (by simp)
      · rw [if_neg hp] at hu
        cases MatchmakingOutcome.paired.inj hu
        exact ⟨rfl, hp, by simpa using hp⟩
  · intro w' n hn
    unfold postMatches at hn
    cases w' with
    | nil =>
      simp only [List.head?_nil] at hn
      cases MatchmakingOutcome.createdWaiting.inj hn
      exact ⟨rfl, rfl⟩
    | cons m' rest =>
      simp only [List.head?_cons] at hn
      by_cases hp : m'.player1Id = some playerId
      · rw [if_pos hp] at hn
        cases MatchmakingOutcome.createdWaiting.inj hn
        exact ⟨rfl, rfl⟩
      · rw [if_neg hp] at hn
        exact absurd hn (by simp)

/-- A waiting countdown match created by `"a"`. -/
def exWaiting : Match :=
  { id := "m6", gameType := "sticks", stake := 10, player1Id := some "a",
    player2Id := none, state := "waiting", winnerId := none, word := none }

/-- Witness for matchmaking: `"a"` requesting a match while their own
waiting match heads the queue gets a fresh waiting match, not paired. -/
theorem matchmaking_never_pairs_self_witness :
    postMatches 0 "sticks" 10 "a" "m7" [exWaiting] =
      .createdWaiting (newWaitingMatch "m7" "sticks" 10 "a") :=
  (matchmaking_never_pairs_self 0 "sticks" 10 "a" "m7" [exWaiting] exWaiting
      rfl rfl (by decide)).1

end QuickShare
